import Mathlib

/-!
Shallow embedding of the similarity engine in `paper_checker.py`
(class `PaperChecker`) and verification of its specified properties.

Modelling conventions:
* Python strings are `List Char` (`Str`); Python byte files are `List Nat`
  (one entry per byte, values < 256 not enforced since no claim needs it).
* `jieba.cut` is an external segmentation library; the engine only relies on
  it being a deterministic function from text to a token list, so the model
  takes it as an explicit parameter `cut : Str → List Str` (representing
  `jieba.cut` after the one-time academic-lexicon registration).
* Python floats are modelled as real numbers.
* A Python `try`/`except` block around an external call is modelled by an
  `Option`/`Except` result: `none` / `.error` stands for a raised exception.
-/

namespace PaperCheck

abbrev Str := List Char

/-- Characters matched by Python's `\s` class, restricted to the ASCII
whitespace repertoire (space, tab, newline, carriage return, vertical tab,
form feed); `str.strip()` uses the same set on this repertoire. -/
def isSpaceChar (c : Char) : Bool :=
  c == ' ' || c == '\t' || c == '\n' || c == '\r' ||
  c == Char.ofNat 11 || c == Char.ofNat 12

/-- CJK unified ideographs, the range `一-鿿` written in the source
regex of `_clean_text`. -/
def isCJK (c : Char) : Bool :=
  0x4e00 ≤ c.toNat && c.toNat ≤ 0x9fff

/-- Characters matched by Python's `\w` class, restricted to the ASCII-plus-CJK
character repertoire this program targets: ASCII alphanumerics, the underscore,
and CJK ideographs (which are word characters in Python's Unicode-aware `re`).
Letters of other scripts also match `\w` in Python but lie outside the
modelled repertoire. -/
def isWordChar (c : Char) : Bool :=
  c.isAlphanum || c == '_' || isCJK c

/-- Python `str.strip()`: drop leading and trailing whitespace. -/
def strip (l : Str) : Str :=
  ((l.dropWhile isSpaceChar).reverse.dropWhile isSpaceChar).reverse

/-- Helper for whitespace collapsing: the Bool records whether the previous
kept character position ended inside a whitespace run. -/
def collapseAux : Bool → Str → Str
  | _, [] => []
  | prevSpace, c :: rest =>
    if isSpaceChar c then
      if prevSpace then collapseAux true rest
      else ' ' :: collapseAux true rest
    else c :: collapseAux false rest

/-- Python `re.sub(r'\s+', ' ', text)`: every maximal whitespace run becomes a
single space. -/
def collapseWS (l : Str) : Str := collapseAux false l

/-- The method `PaperChecker._clean_text`:
`re.sub(r'[^\w\s一-鿿]', '', text)` keeps exactly word characters,
whitespace and CJK ideographs; `re.sub(r'\d+', '', text)` deletes every
maximal digit run, which as a string transformation deletes exactly the digit
characters; `re.sub(r'\s+', ' ', text)` collapses whitespace; `.strip()`
trims. -/
def _clean_text (text : Str) : Str :=
  strip (collapseWS
    ((text.filter (fun c => isWordChar c || isSpaceChar c || isCJK c)).filter
      (fun c => !c.isDigit)))

/-- The stop-word set built by `PaperChecker._load_stop_words`. -/
def stop_words : List Str :=
  (["的", "了", "在", "是", "我", "有", "和", "就", "不", "人", "都", "一",
    "一个", "上", "也", "很", "到", "说", "要", "去", "你", "会", "着",
    "没有", "看", "好", "自己", "这个", "那个", "他", "她", "它", "我们",
    "你们", "他们", "这", "那", "哪", "怎么", "什么", "为什么", "因为",
    "所以", "但是", "虽然", "如果", "然后", "可以", "应该", "需要"]).map
    String.toList

/-- The academic lexicon registered with jieba by
`PaperChecker._add_academic_words`; it only mutates jieba's internal
dictionary, which the model folds into the `cut` parameter. -/
def academic_words : List Str :=
  (["机器学习", "深度学习", "人工智能", "神经网络", "数据分析",
    "算法", "模型", "训练", "测试", "准确率", "召回率", "F1分数",
    "预处理", "特征工程", "过拟合", "欠拟合", "交叉验证"]).map String.toList

/-- The method `PaperChecker.preprocess_text`: return `[]` for empty or
all-whitespace input, otherwise clean the text, segment it with jieba
(the `cut` parameter), and keep tokens that strip to something non-empty,
have more than one character, are not stop words, and are not all-whitespace
(the last test is Python's `word.isspace()`, true only for non-empty
all-whitespace strings). -/
def preprocess_text (cut : Str → List Str) (text : Str) : List Str :=
  if text.isEmpty || (strip text).isEmpty then []
  else
    (cut (_clean_text text)).filter (fun w =>
      !(strip w).isEmpty && decide (1 < w.length) &&
      !(stop_words.contains w) && !(!w.isEmpty && w.all isSpaceChar))

/-- Python `' '.join(words)`. -/
def joinSpace : List Str → Str
  | [] => []
  | [w] => w
  | w :: ws => w ++ ' ' :: joinSpace ws

/-! ### The TF-IDF / cosine scorer

`calculate_similarity` joins each token list with spaces and hands the two
resulting strings to `sklearn.feature_extraction.text.TfidfVectorizer`
constructed with `analyzer='word'`, `tokenizer=lambda x: x`,
`preprocessor=lambda x: x`, `token_pattern=None`, `max_features=5000`.
Because the identity tokenizer returns the document string itself and
sklearn then iterates over the tokenizer's result, the features are the
individual characters of the joined string (the space character included).
With sklearn's defaults the transform computes, for each document `d` and
feature `c`, the weight `count(d, c) * idf(c)` with the smoothed
`idf(c) = ln((1 + n) / (1 + df(c))) + 1` over the `n = 2` document corpus,
l2-normalises each row, and `cosine_similarity` of the two rows is then the
cosine of the un-normalised weight vectors (cosine is invariant under
positive scaling, and sklearn maps a zero row to the cosine value 0, which
matches Lean's division-by-zero convention). The vocabulary is the set of
distinct features of the pair, capped at the 5000 features of highest
corpus-wide count; sklearn raises `ValueError` on an empty vocabulary, which
the `Option` result models as `none`. -/

/-- Strict insertion of a character into a sorted duplicate-free list. -/
def insertSorted (c : Char) : Str → Str
  | [] => [c]
  | x :: xs =>
    if c < x then c :: x :: xs
    else if c = x then x :: xs
    else x :: insertSorted c xs

/-- The sorted list of distinct characters of a string: sklearn's
alphabetically ordered vocabulary over one document pair. -/
def sortedDistinct (l : Str) : Str := l.foldr insertSorted []

/-- Insertion by an arbitrary Boolean precedence (used for the
`max_features` selection order). -/
def insertBy (le : Char → Char → Bool) (c : Char) : Str → Str
  | [] => [c]
  | x :: xs => if le c x then c :: x :: xs else x :: insertBy le c xs

/-- Insertion sort by a Boolean precedence. -/
def sortBy (le : Char → Char → Bool) (l : Str) : Str := l.foldr (insertBy le) []

/-- Combined corpus count of a feature over the two documents. -/
def totalCount (d1 d2 : Str) (c : Char) : ℕ := (d1 ++ d2).count c

/-- Selection precedence for `max_features`: higher corpus-wide count first,
ties broken by character order (the tie order is unobservable in the score;
sklearn breaks ties by `argsort` position). -/
def keyLe (d1 d2 : Str) (a b : Char) : Bool :=
  decide (totalCount d1 d2 b < totalCount d1 d2 a) ||
  (decide (totalCount d1 d2 a = totalCount d1 d2 b) && decide (a.toNat ≤ b.toNat))

/-- Full vocabulary of the document pair, before the cap. -/
def vocabFull (d1 d2 : Str) : Str := sortedDistinct (d1 ++ d2)

/-- Vocabulary after the `max_features=5000` cap: when the full vocabulary
exceeds 5000 features, keep the 5000 of highest corpus count, in their
alphabetical positions. -/
def vocab (d1 d2 : Str) : Str :=
  if (vocabFull d1 d2).length ≤ 5000 then vocabFull d1 d2
  else
    (vocabFull d1 d2).filter
      (fun c => decide (c ∈ (sortBy (keyLe d1 d2) (vocabFull d1 d2)).take 5000))

/-- Document frequency of a feature over the two-document corpus. -/
def df (d1 d2 : Str) (c : Char) : ℕ :=
  (if c ∈ d1 then 1 else 0) + (if c ∈ d2 then 1 else 0)

noncomputable section

/-- sklearn's smoothed inverse document frequency for an `n = 2` corpus:
`ln((1 + 2) / (1 + df)) + 1`. -/
def idf (dfc : ℕ) : ℝ := Real.log ((1 + 2) / (1 + (dfc : ℝ))) + 1

/-- TF-IDF weight of feature `c` in document `d`, with document frequencies
taken over the pair `(d1, d2)`. -/
def tfidfWeight (d1 d2 d : Str) (c : Char) : ℝ :=
  (d.count c : ℝ) * idf (df d1 d2 c)

/-- Dot product of the TF-IDF vectors of documents `da` and `db` over the
capped vocabulary of the pair `(d1, d2)`. -/
def dotProd (d1 d2 da db : Str) : ℝ :=
  ((vocab d1 d2).map (fun c => tfidfWeight d1 d2 da c * tfidfWeight d1 d2 db c)).sum

/-- Cosine similarity of the two TF-IDF vectors (division by zero yields 0,
matching sklearn's treatment of a zero row). -/
def cosineScore (d1 d2 : Str) : ℝ :=
  dotProd d1 d2 d1 d2 /
    (Real.sqrt (dotProd d1 d2 d1 d1) * Real.sqrt (dotProd d1 d2 d2 d2))

/-- The vectorisation-and-scoring step inside the `try` block of
`calculate_similarity`: `none` models sklearn raising (its reachable raise on
this input shape is the empty-vocabulary `ValueError`). -/
def tfidfCosine? (d1 d2 : Str) : Option ℝ :=
  if vocabFull d1 d2 = [] then none else some (cosineScore d1 d2)

/-- Python `max(0.0, min(1.0, similarity))`. -/
def clamp01 (x : ℝ) : ℝ := max 0 (min 1 x)

/-- Python `round(similarity, 4)` (modelled with round-half-up; Python uses
round-half-even, the two differ only on exact half-ulp values). -/
def round4 (x : ℝ) : ℝ := ((round (x * 10000) : ℤ) : ℝ) / 10000

/-- The method `PaperChecker.calculate_similarity`, parametric in the scoring
step `score?` so that the `except Exception: return 0.0` arm is faithfully
represented: a `none` from `score?` models any exception raised inside the
`try` block's external calls, and is absorbed into the result `0.0`. The
clamp and the rounding sit inside the `try` in the source and therefore run
only on a successful score. -/
def calculate_similarity_with (cut : Str → List Str)
    (score? : Str → Str → Option ℝ) (t1 t2 : Str) : ℝ :=
  if (preprocess_text cut t1).isEmpty || (preprocess_text cut t2).isEmpty then 0
  else
    match score? (joinSpace (preprocess_text cut t1))
                 (joinSpace (preprocess_text cut t2)) with
    | none => 0
    | some sim => round4 (clamp01 sim)

/-- The method `PaperChecker.calculate_similarity` with the scoring step
instantiated to the TF-IDF cosine model of the sklearn calls. -/
def calculate_similarity (cut : Str → List Str) (t1 t2 : Str) : ℝ :=
  calculate_similarity_with cut tfidfCosine? t1 t2

end

/-! ### File loading and the top-level comparison -/

abbrev ByteSeq := List Nat

/-- A flat filesystem: path to byte content, earlier entries shadow later
ones (directory structure and write failures are not modelled; writes in
this model always succeed, so `_write_error_output`'s own exception guard is
unreachable). -/
abbrev FS := List (String × ByteSeq)

/-- The candidate encodings, in the order the source lists them. -/
inductive Encoding
  | utf8
  | gbk
  | gb2312
  | utf16
deriving DecidableEq

/-- The local list `encodings = ['utf-8', 'gbk', 'gb2312', 'utf-16']` of
`read_file`. -/
def encodings : List Encoding := [.utf8, .gbk, .gb2312, .utf16]

/-- The Python exceptions the engine can raise.  `unicodeCtorTypeError`
models the final `raise UnicodeDecodeError(f"...")` of `read_file`: Python's
`UnicodeDecodeError` constructor requires five arguments (encoding, object,
start, end, reason), so that one-argument call itself raises `TypeError` —
the escaping exception is a `TypeError`, not a `UnicodeDecodeError`. -/
inductive PyError
  | fileNotFound
  | emptyContentValue
  | unicodeCtorTypeError
  | origEmptyValue
  | copyEmptyValue
deriving DecidableEq

/-- The encoding loop of `read_file`: a decoder returning `none` models
`open(...).read()` raising `UnicodeDecodeError`, which the loop catches and
skips; a successful decode is stripped and returned if non-empty, and
otherwise `raise ValueError("文件内容为空")` escapes at once (only
`UnicodeDecodeError` is caught by the loop). -/
def tryEncodings (dec : Encoding → ByteSeq → Option Str) (bytes : ByteSeq) :
    List Encoding → Except PyError Str
  | [] => .error .unicodeCtorTypeError
  | e :: rest =>
    match dec e bytes with
    | none => tryEncodings dec bytes rest
    | some content =>
      if (strip content).isEmpty then .error .emptyContentValue
      else .ok (strip content)

/-- The method `PaperChecker.read_file`, parametric in the decoder family
`dec` (Python's codec machinery): missing path raises `FileNotFoundError`,
a zero-length file returns the empty string, otherwise the encoding loop
runs. -/
def read_file (dec : Encoding → ByteSeq → Option Str) (fs : FS) (p : String) :
    Except PyError Str :=
  match List.lookup p fs with
  | none => .error .fileNotFound
  | some bytes =>
    if bytes.length = 0 then .ok [] else tryEncodings dec bytes encodings

/-- UTF-8 encoding of a string, over the ASCII repertoire the program writes
(score texts such as `0.00`), where UTF-8 is the identity on code points. -/
def utf8Ascii (s : Str) : ByteSeq := s.map Char.toNat

/-- Write a file: prepend, so the new entry shadows any previous one. -/
def writeFile (fs : FS) (p : String) (data : ByteSeq) : FS := (p, data) :: fs

/-- The method `PaperChecker._write_error_output`: best-effort write of the
fallback value (directory creation and write failure are outside the flat
filesystem model, in which every write succeeds). -/
def _write_error_output (fs : FS) (out : String) (v : Str) : FS :=
  writeFile fs out (utf8Ascii v)

/-- The method `PaperChecker.check_plagiarism`, parametric in the segmenter
`cut`, the decoder family `dec` and the float formatter `fmt` (Python's
`f"{similarity:.2f}"`, an external formatting routine).  The result pairs the
final filesystem with the Python outcome: `.ok` is a normal return, `.error`
a raised exception.  Both `except` arms of the source write the fallback
`0.00` and re-raise the caught exception. -/
noncomputable def check_plagiarism (cut : Str → List Str)
    (dec : Encoding → ByteSeq → Option Str) (fmt : ℝ → Str)
    (fs : FS) (orig copy out : String) : FS × Except PyError ℝ :=
  match read_file dec fs orig with
  | .error e => (_write_error_output fs out "0.00".toList, .error e)
  | .ok orig_text =>
    match read_file dec fs copy with
    | .error e => (_write_error_output fs out "0.00".toList, .error e)
    | .ok copy_text =>
      if orig_text.isEmpty then
        (_write_error_output fs out "0.00".toList, .error .origEmptyValue)
      else if copy_text.isEmpty then
        (_write_error_output fs out "0.00".toList, .error .copyEmptyValue)
      else
        (writeFile fs out (utf8Ascii (fmt (calculate_similarity cut orig_text copy_text))),
         .ok (calculate_similarity cut orig_text copy_text))

/-! ### Definitions written from the claims' words, for comparison with the
source definitions above. -/

/-- Claim C8 as stated: the first cleaning pass keeps only characters that
are whitespace, alphanumeric, or CJK ideographs — in particular it would
remove the underscore, which the source's `\w` class keeps. -/
def _clean_text_claimed (text : Str) : Str :=
  strip (collapseWS
    ((text.filter (fun c => isSpaceChar c || c.isAlphanum || isCJK c)).filter
      (fun c => !c.isDigit)))

/-- Claim C8 amended: the first cleaning pass keeps whitespace, word
characters (alphanumeric or underscore), and CJK ideographs. -/
def _clean_text_spec (text : Str) : Str :=
  strip (collapseWS
    ((text.filter (fun c =>
        isSpaceChar c || (c.isAlphanum || c == '_' || isCJK c))).filter
      (fun c => !c.isDigit)))

/-- Claim C6 as stated: an encoding whose decode succeeds but strips to
nothing is passed over in favour of later candidates (the source instead
raises `ValueError` at once in that situation). -/
def tryEncodingsClaimed (dec : Encoding → ByteSeq → Option Str)
    (bytes : ByteSeq) : List Encoding → Except PyError Str
  | [] => .error .unicodeCtorTypeError
  | e :: rest =>
    match dec e bytes with
    | none => tryEncodingsClaimed dec bytes rest
    | some content =>
      if (strip content).isEmpty then tryEncodingsClaimed dec bytes rest
      else .ok (strip content)

/-- The behaviour of Python's codecs on the byte string `b"  "` (two ASCII
spaces): utf-8, gbk and gb2312 decode it to two spaces, while utf-16
(little-endian, no byte-order mark) decodes it to the single non-whitespace
character U+2020. -/
def dec6 : Encoding → ByteSeq → Option Str := fun e _ =>
  match e with
  | .utf16 => some (Char.ofNat 0x2020 :: [])
  | _ => some (' ' :: ' ' :: [])

/-- A filesystem holding one file `f` whose content is the two bytes of
`b"  "`. -/
def fs6 : FS := ("f", 32 :: 32 :: []) :: []

/-! ## Lemmas -/

theorem round_le_round_of_le {x y : ℝ} (h : x ≤ y) : round x ≤ round y := by
  rw [round_eq, round_eq]
  exact Int.floor_le_floor (by linarith)

theorem round4_nonneg {x : ℝ} (h : 0 ≤ x) : 0 ≤ round4 x := by
  unfold round4
  apply div_nonneg _ (by norm_num)
  have h0 : round (0 : ℝ) ≤ round (x * 10000) := round_le_round_of_le (by nlinarith)
  rw [round_zero] at h0
  exact_mod_cast h0

theorem round4_le_one {x : ℝ} (h : x ≤ 1) : round4 x ≤ 1 := by
  unfold round4
  rw [div_le_one (by norm_num : (0 : ℝ) < 10000)]
  have hb : round (x * 10000) ≤ round ((10000 : ℝ)) := round_le_round_of_le (by nlinarith)
  rw [show ((10000 : ℝ)) = ((10000 : ℤ) : ℝ) by norm_num, round_intCast] at hb
  exact_mod_cast hb

theorem clamp01_nonneg (x : ℝ) : 0 ≤ clamp01 x := le_max_left 0 _

theorem clamp01_le_one (x : ℝ) : clamp01 x ≤ 1 :=
  max_le zero_le_one (min_le_left 1 x)

theorem clamp01_one : clamp01 1 = 1 := by
  unfold clamp01
  rw [min_self, max_eq_right zero_le_one]

theorem round4_one : round4 1 = 1 := by
  unfold round4
  rw [one_mul, show ((10000 : ℝ)) = ((10000 : ℤ) : ℝ) by norm_num, round_intCast]
  norm_num

/-! ## Claims -/

/-- Claim C2: if either input's preprocessed token sequence is empty (in
particular for the empty string), `calculate_similarity` returns `0.0` as a
normal value, whatever the vectorisation step would do — it is never
invoked. -/
theorem C2_empty_tokens_zero (cut : Str → List Str)
    (score? : Str → Str → Option ℝ) (t1 t2 : Str)
    (h : preprocess_text cut t1 = [] ∨ preprocess_text cut t2 = []) :
    calculate_similarity_with cut score? t1 t2 = 0 := by
  rcases h with h | h <;> simp [calculate_similarity_with, h]

theorem C2_empty_witness :
    preprocess_text (fun s => [s]) "".toList = [] ∧
    calculate_similarity_with (fun s => [s]) tfidfCosine? "ab".toList "".toList = 0 :=
  ⟨rfl, C2_empty_tokens_zero _ _ _ _ (Or.inr rfl)⟩

/-- Claim C9: when the vectorisation/scoring step raises (modelled by
`score?` returning `none`), `calculate_similarity` absorbs the exception and
returns `0.0` instead of propagating it. -/
theorem C9_exception_absorbed (cut : Str → List Str)
    (score? : Str → Str → Option ℝ) (t1 t2 : Str)
    (h1 : preprocess_text cut t1 ≠ []) (h2 : preprocess_text cut t2 ≠ [])
    (h3 : score? (joinSpace (preprocess_text cut t1))
            (joinSpace (preprocess_text cut t2)) = none) :
    calculate_similarity_with cut score? t1 t2 = 0 := by
  simp [calculate_similarity_with, h1, h2, h3, List.isEmpty_iff]

theorem C9_absorbed_witness :
    preprocess_text (fun s => [s]) "ab".toList ≠ [] ∧
    calculate_similarity_with (fun s => [s]) (fun _ _ => none)
      "ab".toList "ab".toList = 0 :=
  ⟨by decide, C9_exception_absorbed _ _ _ _ (by decide) (by decide) rfl⟩

/-- Claim C10: a non-empty text that preprocesses to no tokens behaves like
the empty string — paired with any other text, in either position, the score
is `0.0`. -/
theorem C10_no_tokens_zero (cut : Str → List Str)
    (score? : Str → Str → Option ℝ) (t u : Str)
    (h1 : t ≠ []) (h2 : preprocess_text cut t = []) :
    calculate_similarity_with cut score? t u = 0 ∧
    calculate_similarity_with cut score? u t = 0 := by
  constructor <;> simp [calculate_similarity_with, h2]

theorem C10_no_tokens_witness :
    (" ".toList : Str) ≠ [] ∧
    preprocess_text (fun s => [s]) " ".toList = [] ∧
    (calculate_similarity_with (fun s => [s]) tfidfCosine? " ".toList "ab".toList = 0 ∧
     calculate_similarity_with (fun s => [s]) tfidfCosine? "ab".toList " ".toList = 0) :=
  ⟨by decide, rfl, C10_no_tokens_zero _ _ _ _ (by decide) rfl⟩

/-- Claim C3: every value `calculate_similarity` returns lies in `[0, 1]`
and is an integer multiple of `1/10000`, i.e. a number rounded to four
decimal places. -/
theorem C3_bounded_rounded (cut : Str → List Str) (t1 t2 : Str) :
    0 ≤ calculate_similarity cut t1 t2 ∧ calculate_similarity cut t1 t2 ≤ 1 ∧
    ∃ k : ℤ, calculate_similarity cut t1 t2 = (k : ℝ) / 10000 := by
  unfold calculate_similarity calculate_similarity_with
  split
  · exact ⟨le_refl 0, by norm_num, 0, by norm_num⟩
  · cases h : tfidfCosine? (joinSpace (preprocess_text cut t1))
        (joinSpace (preprocess_text cut t2)) with
    | none => exact ⟨le_refl 0, by norm_num, 0, by norm_num⟩
    | some s =>
      exact ⟨round4_nonneg (clamp01_nonneg s), round4_le_one (clamp01_le_one s),
        round (clamp01 s * 10000), rfl⟩

/-- Claim C8, counterexample: on the one-character text `_` the source keeps
the underscore (it is a `\w` word character), while the claim's character
class (whitespace, alphanumeric, CJK only) would delete it. -/
theorem C8_counterexample :
    _clean_text ('_' :: []) = ('_' :: []) ∧
    _clean_text_claimed ('_' :: []) = [] ∧
    _clean_text ('_' :: []) ≠ _clean_text_claimed ('_' :: []) := by
  decide

/-- Claim C8 amended: `_clean_text` removes every character that is not
whitespace, not a word character (alphanumeric or underscore), and not a CJK
ideograph; then removes digit runs, collapses whitespace runs to one space,
and trims; it is total and maps the empty string to the empty string. -/
theorem C8_amended_clean :
    (∀ text : Str, _clean_text text = _clean_text_spec text) ∧
    _clean_text [] = [] := by
  refine ⟨fun text => ?_, rfl⟩
  unfold _clean_text _clean_text_spec
  have h : text.filter (fun c => isWordChar c || isSpaceChar c || isCJK c) =
      text.filter (fun c => isSpaceChar c || (c.isAlphanum || c == '_' || isCJK c)) := by
    refine List.filter_congr (fun c _ => ?_)
    unfold isWordChar
    cases c.isAlphanum <;> cases c == '_' <;> cases isCJK c <;> cases isSpaceChar c <;> rfl
  rw [h]

/-- The encoding loop returns the stripped content of the first encoding
that decodes at all; if that content strips to nothing the loop raises at
once, and if no encoding decodes it falls through to the mis-constructed
`UnicodeDecodeError` raise. -/
theorem tryEncodings_eq_findSome (dec : Encoding → ByteSeq → Option Str)
    (bytes : ByteSeq) (l : List Encoding) :
    tryEncodings dec bytes l =
      match l.findSome? (fun e => dec e bytes) with
      | none => Except.error PyError.unicodeCtorTypeError
      | some c =>
        if (strip c).isEmpty then Except.error PyError.emptyContentValue
        else Except.ok (strip c) := by
  induction l with
  | nil => rfl
  | cons e rest ih =>
    cases h : dec e bytes with
    | none => simp [tryEncodings, List.findSome?_cons, h, ih]
    | some c => simp [tryEncodings, List.findSome?_cons, h]

/-- Claim C6, counterexample: the file `f` holds the two bytes of `b"  "`.
Under the real codec behaviour (`dec6`) the first candidate, utf-8, decodes
successfully to whitespace-only content; the claim says that candidate is
passed over in favour of utf-16, which decodes to the non-empty `†` — but
`read_file` instead raises `ValueError` at the first successful decode. -/
theorem C6_counterexample :
    tryEncodingsClaimed dec6 (32 :: 32 :: []) encodings =
      Except.ok (Char.ofNat 0x2020 :: []) ∧
    read_file dec6 fs6 "f" = Except.error PyError.emptyContentValue ∧
    read_file dec6 fs6 "f" ≠ Except.ok (Char.ofNat 0x2020 :: []) := by
  refine ⟨rfl, rfl, ?_⟩
  intro h
  exact Except.noConfusion h

/-- Claim C6 amended: on an existing non-empty file, `read_file` tries the
candidate encodings in the fixed order utf-8, gbk, gb2312, utf-16, skipping
the ones that fail to decode; at the first encoding that decodes
successfully, it returns the trimmed content when that is non-empty, and
otherwise raises `ValueError` immediately, without trying later
candidates. -/
theorem C6_amended_first_decode (dec : Encoding → ByteSeq → Option Str)
    (fs : FS) (p : String) (bytes : ByteSeq)
    (h1 : List.lookup p fs = some bytes) (h2 : bytes ≠ []) :
    read_file dec fs p =
      match encodings.findSome? (fun e => dec e bytes) with
      | none => Except.error PyError.unicodeCtorTypeError
      | some c =>
        if (strip c).isEmpty then Except.error PyError.emptyContentValue
        else Except.ok (strip c) := by
  have hlen : ¬ bytes.length = 0 := fun hc => h2 (List.length_eq_zero.mp hc)
  simp only [read_file, h1]
  rw [if_neg hlen]
  exact tryEncodings_eq_findSome dec bytes encodings

theorem C6_amended_witness :
    List.lookup "g" ((("g", (120 : ℕ) :: []) :: []) : FS) = some ((120 : ℕ) :: []) ∧
    ((120 : ℕ) :: []) ≠ ([] : ByteSeq) ∧
    read_file (fun _ _ => some ('x' :: [])) ((("g", (120 : ℕ) :: []) :: []) : FS) "g" =
      Except.ok ('x' :: []) := by
  refine ⟨rfl, by decide, ?_⟩
  rw [C6_amended_first_decode (fun _ _ => some ('x' :: []))
    ((("g", (120 : ℕ) :: []) :: []) : FS) "g" ((120 : ℕ) :: []) (by decide) (by decide)]
  rfl

/-- Claim C7's failing input, evaluated in the model: a file holding the
single byte `0xFF` is rejected by every candidate decoder (it is ill-formed
utf-8, a truncated gbk/gb2312 lead byte, and an odd-length utf-16 input), so
the loop falls through to `raise UnicodeDecodeError(f"...")`; that
one-argument constructor call itself raises `TypeError`, so the escaping
exception is a `TypeError`, not the documented `UnicodeDecodeError`. -/
theorem C7_typeerror_on_undecodable :
    read_file (fun _ _ => none) ((("h", (255 : ℕ) :: []) :: []) : FS) "h" =
      Except.error PyError.unicodeCtorTypeError := by
  rfl

/-- Claim C5: whenever either input path is absent from the filesystem,
`check_plagiarism` leaves the output path holding exactly the text `0.00`
and re-raises the error to its caller. -/
theorem C5_fallback_write (cut : Str → List Str)
    (dec : Encoding → ByteSeq → Option Str) (fmt : ℝ → Str)
    (fs : FS) (orig copy out : String)
    (h : List.lookup orig fs = none ∨ List.lookup copy fs = none) :
    List.lookup out (check_plagiarism cut dec fmt fs orig copy out).1 =
      some (utf8Ascii "0.00".toList) ∧
    ∃ e, (check_plagiarism cut dec fmt fs orig copy out).2 = Except.error e := by
  rcases h with h | h
  · have hro : read_file dec fs orig = .error .fileNotFound := by
      simp [read_file, h]
    simp [check_plagiarism, hro, _write_error_output, writeFile, List.lookup]
  · cases hro : read_file dec fs orig with
    | error e =>
      simp [check_plagiarism, hro, _write_error_output, writeFile, List.lookup]
    | ok otext =>
      have hrc : read_file dec fs copy = .error .fileNotFound := by
        simp [read_file, h]
      simp [check_plagiarism, hro, hrc, _write_error_output, writeFile, List.lookup]

theorem C5_fallback_witness :
    List.lookup "a.txt" ([] : FS) = none ∧
    (List.lookup "out.txt"
        (check_plagiarism (fun s => [s]) (fun _ _ => none) (fun _ => [])
          [] "a.txt" "b.txt" "out.txt").1 = some (utf8Ascii "0.00".toList) ∧
     ∃ e, (check_plagiarism (fun s => [s]) (fun _ _ => none) (fun _ => [])
          [] "a.txt" "b.txt" "out.txt").2 = Except.error e) :=
  ⟨rfl, C5_fallback_write _ _ _ _ _ _ _ (Or.inl rfl)⟩

theorem mem_insertSorted {a c : Char} {l : Str} :
    a ∈ insertSorted c l ↔ a = c ∨ a ∈ l := by
  induction l with
  | nil => simp [insertSorted]
  | cons x xs ih =>
    unfold insertSorted
    by_cases h1 : c < x
    · simp [h1]
    · by_cases h2 : c = x
      · subst h2
        simp [h1]
      · simp [h1, h2, ih]
        tauto

theorem pairwise_insertSorted {c : Char} {l : Str} (h : l.Pairwise (· < ·)) :
    (insertSorted c l).Pairwise (· < ·) := by
  induction l with
  | nil => simp [insertSorted]
  | cons x xs ih =>
    rw [List.pairwise_cons] at h
    obtain ⟨hx, hxs⟩ := h
    unfold insertSorted
    by_cases h1 : c < x
    · rw [if_pos h1]
      refine List.pairwise_cons.mpr ⟨?_, List.pairwise_cons.mpr ⟨hx, hxs⟩⟩
      intro b hb
      rcases List.mem_cons.mp hb with rfl | hb
      · exact h1
      · exact lt_trans h1 (hx b hb)
    · by_cases h2 : c = x
      · rw [if_neg h1, if_pos h2]
        exact List.pairwise_cons.mpr ⟨hx, hxs⟩
      · rw [if_neg h1, if_neg h2]
        refine List.pairwise_cons.mpr ⟨?_, ih hxs⟩
        intro b hb
        rcases mem_insertSorted.mp hb with rfl | hb
        · exact lt_of_le_of_ne (le_of_not_lt h1) (Ne.symm h2)
        · exact hx b hb

theorem mem_sortedDistinct {a : Char} {l : Str} :
    a ∈ sortedDistinct l ↔ a ∈ l := by
  induction l with
  | nil => simp [sortedDistinct]
  | cons x xs ih =>
    show a ∈ insertSorted x (sortedDistinct xs) ↔ _
    rw [mem_insertSorted, ih, List.mem_cons]

theorem pairwise_sortedDistinct (l : Str) :
    (sortedDistinct l).Pairwise (· < ·) := by
  induction l with
  | nil => simp [sortedDistinct]
  | cons x xs ih => exact pairwise_insertSorted ih

theorem sorted_ext {l1 l2 : Str} (h1 : l1.Pairwise (· < ·))
    (h2 : l2.Pairwise (· < ·)) (h : ∀ a, a ∈ l1 ↔ a ∈ l2) : l1 = l2 := by
  induction l1 generalizing l2 with
  | nil =>
    cases l2 with
    | nil => rfl
    | cons y ys => exact absurd ((h y).mpr (List.mem_cons_self _ _)) (by simp)
  | cons x xs ih =>
    cases l2 with
    | nil => exact absurd ((h x).mp (List.mem_cons_self _ _)) (by simp)
    | cons y ys =>
      rw [List.pairwise_cons] at h1 h2
      have hxy : x = y := by
        rcases List.mem_cons.mp ((h x).mp (List.mem_cons_self _ _)) with h' | hx2
        · exact h'
        · rcases List.mem_cons.mp ((h y).mpr (List.mem_cons_self _ _)) with h' | hy1
          · exact h'.symm
          · exact absurd (lt_trans (h2.1 x hx2) (h1.1 y hy1)) (lt_irrefl y)
      subst hxy
      have htl : ∀ a, a ∈ xs ↔ a ∈ ys := by
        intro a
        constructor
        · intro ha
          rcases List.mem_cons.mp ((h a).mp (List.mem_cons.mpr (Or.inr ha))) with rfl | h'
          · exact absurd (h1.1 a ha) (lt_irrefl a)
          · exact h'
        · intro ha
          rcases List.mem_cons.mp ((h a).mpr (List.mem_cons.mpr (Or.inr ha))) with rfl | h'
          · exact absurd (h2.1 a ha) (lt_irrefl a)
          · exact h'
      rw [ih h1.2 h2.2 htl]

theorem vocabFull_comm (d1 d2 : Str) : vocabFull d1 d2 = vocabFull d2 d1 := by
  unfold vocabFull
  refine sorted_ext (pairwise_sortedDistinct _) (pairwise_sortedDistinct _) (fun a => ?_)
  rw [mem_sortedDistinct, mem_sortedDistinct, List.mem_append, List.mem_append]
  exact or_comm

theorem totalCount_comm (d1 d2 : Str) : totalCount d1 d2 = totalCount d2 d1 := by
  funext c
  unfold totalCount
  rw [List.count_append, List.count_append, Nat.add_comm]

theorem keyLe_comm (d1 d2 : Str) : keyLe d1 d2 = keyLe d2 d1 := by
  unfold keyLe
  rw [totalCount_comm]

theorem vocab_comm (d1 d2 : Str) : vocab d1 d2 = vocab d2 d1 := by
  unfold vocab
  rw [vocabFull_comm, keyLe_comm]

theorem df_comm (d1 d2 : Str) (c : Char) : df d1 d2 c = df d2 d1 c :=
  Nat.add_comm _ _

theorem tfidfWeight_comm (d1 d2 d : Str) (c : Char) :
    tfidfWeight d1 d2 d c = tfidfWeight d2 d1 d c := by
  unfold tfidfWeight
  rw [df_comm]

theorem dotProd_comm (d1 d2 da db : Str) :
    dotProd d1 d2 da db = dotProd d2 d1 db da := by
  unfold dotProd
  rw [vocab_comm]
  have h : (fun c => tfidfWeight d1 d2 da c * tfidfWeight d1 d2 db c) =
      (fun c => tfidfWeight d2 d1 db c * tfidfWeight d2 d1 da c) := by
    funext c
    rw [mul_comm, tfidfWeight_comm d1 d2 da c, tfidfWeight_comm d1 d2 db c]
  rw [h]

theorem tfidfCosine?_comm (d1 d2 : Str) :
    tfidfCosine? d1 d2 = tfidfCosine? d2 d1 := by
  unfold tfidfCosine? cosineScore
  rw [vocabFull_comm, dotProd_comm d1 d2 d1 d2, dotProd_comm d1 d2 d1 d1,
    dotProd_comm d1 d2 d2 d2, mul_comm (Real.sqrt (dotProd d2 d1 d1 d1))]

/-- Claim C4: `calculate_similarity` is symmetric in its two texts — the
vocabulary, the document frequencies and the `max_features` selection depend
only on the unordered pair, and the cosine is commutative. -/
theorem C4_symmetry (cut : Str → List Str) (t1 t2 : Str) :
    calculate_similarity cut t1 t2 = calculate_similarity cut t2 t1 := by
  unfold calculate_similarity calculate_similarity_with
  rw [tfidfCosine?_comm, Bool.or_comm]

theorem mem_insertBy {le : Char → Char → Bool} {c a : Char} {l : Str} :
    a ∈ insertBy le c l ↔ a = c ∨ a ∈ l := by
  induction l with
  | nil => simp [insertBy]
  | cons x xs ih =>
    unfold insertBy
    by_cases h : le c x
    · simp [h]
    · simp [h, ih]
      tauto

theorem mem_sortBy {le : Char → Char → Bool} {a : Char} {l : Str} :
    a ∈ sortBy le l ↔ a ∈ l := by
  induction l with
  | nil => simp [sortBy]
  | cons x xs ih =>
    show a ∈ insertBy le x (sortBy le xs) ↔ _
    rw [mem_insertBy, ih, List.mem_cons]

theorem length_insertBy (le : Char → Char → Bool) (c : Char) (l : Str) :
    (insertBy le c l).length = l.length + 1 := by
  induction l with
  | nil => rfl
  | cons x xs ih =>
    unfold insertBy
    by_cases h : le c x
    · simp [h]
    · simp [h, ih]

theorem length_sortBy (le : Char → Char → Bool) (l : Str) :
    (sortBy le l).length = l.length := by
  induction l with
  | nil => rfl
  | cons x xs ih =>
    show (insertBy le x (sortBy le xs)).length = _
    rw [length_insertBy, ih, List.length_cons]

theorem vocab_subset {d1 d2 : Str} {c : Char} (h : c ∈ vocab d1 d2) :
    c ∈ vocabFull d1 d2 := by
  unfold vocab at h
  split at h
  · exact h
  · exact List.mem_of_mem_filter h

theorem vocab_ne_nil {d1 d2 : Str} (h : vocabFull d1 d2 ≠ []) :
    vocab d1 d2 ≠ [] := by
  unfold vocab
  split
  · exact h
  · next hlen =>
    have h5 : 5000 < (vocabFull d1 d2).length := lt_of_not_le hlen
    have htake : 0 < ((sortBy (keyLe d1 d2) (vocabFull d1 d2)).take 5000).length := by
      rw [List.length_take, length_sortBy]
      omega
    obtain ⟨x, hx⟩ := List.exists_mem_of_ne_nil _ (List.length_pos.mp htake)
    have hxv : x ∈ vocabFull d1 d2 := mem_sortBy.mp (List.take_subset 5000 _ hx)
    exact List.ne_nil_of_mem (List.mem_filter.mpr ⟨hxv, decide_eq_true hx⟩)

theorem mem_preprocess_ne_nil {cut : Str → List Str} {t w : Str}
    (h : w ∈ preprocess_text cut t) : w ≠ [] := by
  unfold preprocess_text at h
  split at h
  · simp at h
  · obtain ⟨-, hp⟩ := List.mem_filter.mp h
    intro heq
    subst heq
    exact absurd hp (by decide)

theorem joinSpace_ne_nil {ws : List Str} (h1 : ws ≠ [])
    (h2 : ∀ w ∈ ws, w ≠ []) : joinSpace ws ≠ [] := by
  cases ws with
  | nil => exact absurd rfl h1
  | cons w rest =>
    cases rest with
    | nil => exact h2 w (List.mem_cons_self _ _)
    | cons w2 r2 => simp [joinSpace]

theorem tfidfCosine?_self {d : Str} (hd : d ≠ []) : tfidfCosine? d d = some 1 := by
  have hvf : vocabFull d d ≠ [] := by
    obtain ⟨c, hc⟩ := List.exists_mem_of_ne_nil d hd
    exact List.ne_nil_of_mem
      (mem_sortedDistinct.mpr (List.mem_append.mpr (Or.inl hc)))
  unfold tfidfCosine?
  rw [if_neg hvf]
  have hpos : 0 < dotProd d d d d := by
    obtain ⟨c0, hc0⟩ := List.exists_mem_of_ne_nil _ (vocab_ne_nil hvf)
    have hc0d : c0 ∈ d := by
      rcases List.mem_append.mp (mem_sortedDistinct.mp (vocab_subset hc0)) with h | h
      · exact h
      · exact h
    have hw : 0 < tfidfWeight d d d c0 := by
      unfold tfidfWeight
      have hdf : df d d c0 = 2 := by
        unfold df
        rw [if_pos hc0d]
      have hidf : idf 2 = 1 := by
        unfold idf
        norm_num
      rw [hdf, hidf, mul_one]
      exact_mod_cast List.count_pos_iff.mpr hc0d
    unfold dotProd
    have hmem : tfidfWeight d d d c0 * tfidfWeight d d d c0 ∈
        (vocab d d).map (fun c => tfidfWeight d d d c * tfidfWeight d d d c) :=
      List.mem_map_of_mem _ hc0
    have hnn : ∀ x ∈ (vocab d d).map
        (fun c => tfidfWeight d d d c * tfidfWeight d d d c), (0 : ℝ) ≤ x := by
      intro x hx
      obtain ⟨c, -, rfl⟩ := List.mem_map.mp hx
      exact mul_self_nonneg _
    exact lt_of_lt_of_le (mul_pos hw hw) (List.single_le_sum hnn _ hmem)
  unfold cosineScore
  rw [Real.mul_self_sqrt (le_of_lt hpos), div_self (ne_of_gt hpos)]

/-- Claim C1: on two identical texts whose preprocessing yields a non-empty
token sequence, `calculate_similarity` returns exactly `1.0` (the claim only
asks for `1.0` up to a `0.1` rounding tolerance). -/
theorem C1_identity_score_one (cut : Str → List Str) (t : Str)
    (h : preprocess_text cut t ≠ []) : calculate_similarity cut t t = 1 := by
  unfold calculate_similarity calculate_similarity_with
  have hne : (preprocess_text cut t).isEmpty = false := by
    rcases he : (preprocess_text cut t).isEmpty with _ | _
    · rfl
    · exact absurd (List.isEmpty_iff.mp he) h
  have hd : joinSpace (preprocess_text cut t) ≠ [] :=
    joinSpace_ne_nil h (fun w hw => mem_preprocess_ne_nil hw)
  rw [hne]
  simp only [Bool.or_self, Bool.false_eq_true, if_false]
  rw [tfidfCosine?_self hd]
  show round4 (clamp01 1) = 1
  rw [clamp01_one, round4_one]

theorem C1_identity_witness :
    preprocess_text (fun s => [s]) "ab".toList ≠ [] ∧
    calculate_similarity (fun s => [s]) "ab".toList "ab".toList = 1 :=
  ⟨by decide, C1_identity_score_one _ _ (by decide)⟩

end PaperCheck
